import Mathlib

/-
Verification of the GrowMe paginated-selection component (src/src/App.tsx).

The component keeps a global selection set (a JS Set of record ids) across
page navigation of a remote collection, and offers a bulk operation that
selects the first N records of the whole collection by walking pages in
order.  Everything below is a shallow embedding of the functions of
App.tsx: JS Set of numbers becomes Finset Nat, the remote endpoint becomes
an explicit fetch function of type Nat -> Option (List Artwork) (none is a
rejected fetch or a parse failure), and the asynchronous setState flow of
fetchArtworks becomes an explicit event trace.
-/

namespace GrowMe

/-- One record of the remote collection (interface Artwork, App.tsx lines
12-20).  Only the id takes part in selection logic; the display fields are
independently nullable at runtime (the UI renders a missing one as
"N/A"). -/
structure Artwork where
  id : Nat
  title : Option String
  place_of_origin : Option String
  artist_display : Option String
  inscriptions : Option String
  date_start : Option Int
  date_end : Option Int
deriving DecidableEq

/-- A record carrying only an id, for concrete test collections. -/
def mkArt (i : Nat) : Artwork :=
  ⟨i, none, none, none, none, none, none⟩

/-- Pagination metadata (interface PaginationInfo, App.tsx lines 22-28). -/
structure PaginationInfo where
  total : Nat
  limit : Nat
  offset : Nat
  total_pages : Nat
  current_page : Nat
deriving DecidableEq

/-- The useState initial value of the pagination metadata (App.tsx lines
33-39): nothing loaded yet, so total = 0 and total_pages = 0. -/
def initialPagination : PaginationInfo :=
  ⟨0, 12, 0, 0, 1⟩

/-- The set of ids of a list of records. -/
def idsOf (l : List Artwork) : Finset Nat :=
  (l.map Artwork.id).toFinset

/-- Folding Set.add over a list of records, as both handleSelectionChange
(App.tsx line 87-89) and the bulk loop (line 118) do. -/
def insertIds (s : Finset Nat) (l : List Artwork) : Finset Nat :=
  l.foldl (fun t a => insert a.id t) s

/-- handleSelectionChange (App.tsx lines 76-93): copy the selection,
delete every id of the currently displayed page, then add back the ids of
the event value (the checked rows of that page).  The Array.isArray guard
is always true in the typed model. -/
def handleSelectionChange (selectedRowIds : Finset Nat) (artworks : List Artwork)
    (value : List Artwork) : Finset Nat :=
  insertIds ((artworks.map Artwork.id).foldl Finset.erase selectedRowIds) value

/-- getCurrentPageSelectedRows (App.tsx lines 95-97): the displayed page
filtered by membership of the id in the global selection. -/
def getCurrentPageSelectedRows (artworks : List Artwork)
    (selectedRowIds : Finset Nat) : List Artwork :=
  artworks.filter (fun a => a.id ∈ selectedRowIds)

/-- JS parseInt of the count input (App.tsx line 100), for the decimal
strings the number input box produces: skip leading whitespace, an
optional sign, then the longest run of leading decimal digits; none (NaN)
when that run is empty.  Anything after the digit run - such as the
fractional part of "3.5" - is ignored, which is exactly parseInt's
truncating behaviour. -/
def leadingNat (cs : List Char) : Option Nat :=
  match cs.takeWhile Char.isDigit with
  | [] => none
  | ds => some (ds.foldl (fun acc c => acc * 10 + (c.toNat - 48)) 0)

/-- See leadingNat: the sign and whitespace handling of parseInt. -/
def jsParseInt (s : String) : Option Int :=
  match s.data.dropWhile Char.isWhitespace with
  | '-' :: rest => (leadingNat rest).map (fun n => -(n : Int))
  | '+' :: rest => (leadingNat rest).map (fun n => (n : Int))
  | cs => (leadingNat cs).map (fun n => (n : Int))

/-- Result of the bulk page walk (the while loop of App.tsx lines
110-123): either the loop finished with the local accumulated set, the
remaining counter and the pages fetched in order, or a fetch rejected at
some page, in which case the exception aborts the whole handler. -/
inductive WalkResult where
  | ok (sel : Finset Nat) (remaining : Nat) (fetched : List Nat)
  | failed (page : Nat) (fetched : List Nat)
deriving DecidableEq

/-- The inner for loop of the walk (App.tsx lines 116-120): for each
record of the fetched page, stop if the remaining counter is 0, else add
the id and decrement. -/
def addFromPage : List Artwork → Nat → Finset Nat → Finset Nat × Nat
  | [], r, sel => (sel, r)
  | a :: rest, r, sel =>
      if r = 0 then (sel, 0) else addFromPage rest (r - 1) (insert a.id sel)

/-- The while loop of App.tsx lines 110-123.  gas is the number of loop
iterations still possible, tp + 1 - currentPage: the loop increments
currentPage each iteration and runs only while currentPage ≤ tp, so with
gas = tp + 1 - currentPage the gas-0 case fires exactly when
currentPage = tp + 1, where the while condition is false as well and the
same .ok result is produced - the fuel never cuts the loop short. -/
def selectLoop (fetch : Nat → Option (List Artwork)) (tp : Nat) :
    Nat → Nat → Nat → Finset Nat → List Nat → WalkResult
  | 0, _, r, sel, fetched => .ok sel r fetched
  | gas + 1, currentPage, r, sel, fetched =>
    if 0 < r ∧ currentPage ≤ tp then
      match fetch currentPage with
      | none => .failed currentPage fetched
      | some data =>
          selectLoop fetch tp gas (currentPage + 1) (addFromPage data r sel).2
            (addFromPage data r sel).1 (fetched ++ [currentPage])
    else .ok sel r fetched

/-- What handleSelectRowsByCount leaves behind: the committed selection
state, the list of pages fetched (network activity), and how the call
ended.  invalidInput is the alert-and-return branch (lines 101-104);
fetchException is an unhandled rejection escaping the handler, in which
case setSelectedRowIds on line 125 is never reached; committed carries the
final value of the rowsToSelect counter. -/
inductive BulkOutcome where
  | invalidInput
  | fetchException (page : Nat)
  | committed (remaining : Nat)
deriving DecidableEq

/-- See BulkOutcome. -/
structure BulkResult where
  finalSel : Finset Nat
  fetched : List Nat
  outcome : BulkOutcome
deriving DecidableEq

/-- The walk of handleSelectRowsByCount after validation (App.tsx lines
106-125): seed the local set with the current selection, walk pages from
1 bounded by the captured pagination.total_pages, and commit the local
set only when the loop completes. -/
def selectFirstN (fetch : Nat → Option (List Artwork)) (tp n : Nat)
    (selectedRowIds : Finset Nat) : BulkResult :=
  match selectLoop fetch tp tp 1 n selectedRowIds [] with
  | .ok s r f => ⟨s, f, .committed r⟩
  | .failed p f => ⟨selectedRowIds, f, .fetchException p⟩

/-- handleSelectRowsByCount (App.tsx lines 99-128): parse the input, alert
and return when the parse is NaN or the count is ≤ 0, else run the walk.
The overlay-hide and input-reset effects touch no selection state and are
omitted. -/
def handleSelectRowsByCount (fetch : Nat → Option (List Artwork)) (tp : Nat)
    (rowCountInput : String) (selectedRowIds : Finset Nat) : BulkResult :=
  match jsParseInt rowCountInput with
  | none => ⟨selectedRowIds, [], .invalidInput⟩
  | some count =>
      if count ≤ 0 then ⟨selectedRowIds, [], .invalidInput⟩
      else selectFirstN fetch tp count.toNat selectedRowIds

/-- A remote collection given as its list of pages: fetching page p
returns the p-th page (1-based) and never fails. -/
def pagesFetch (pages : List (List Artwork)) : Nat → Option (List Artwork) :=
  fun p => pages[p - 1]?

/-- Total number of records of a paged collection. -/
def totalRecords (pages : List (List Artwork)) : Nat :=
  (pages.map List.length).sum

/-- The records of a paged collection from page cp (1-based) onwards. -/
def restRecords (pages : List (List Artwork)) (cp : Nat) : List Artwork :=
  (pages.drop (cp - 1)).flatten

/-- The spec's worked example: 100 records with ids 1..100, page size 12,
hence 9 pages (eight of 12 records and a last one of 4). -/
def artPages : List (List Artwork) :=
  (List.range 9).map
    (fun p => (((List.range 100).map (fun i => mkArt (i + 1))).drop (p * 12)).take 12)

/-- The state of the component that fetchArtworks touches (App.tsx lines
31-39): the displayed record list, the pagination metadata and the
loading flag. -/
structure ControllerState where
  artworks : List Artwork
  pagination : PaginationInfo
  loading : Bool
deriving DecidableEq

/-- How one awaited fetch of fetchArtworks ends: a parsed body, or a
rejection (network or JSON failure) caught on line 55. -/
inductive FetchOutcome where
  | success (data : List Artwork) (pag : PaginationInfo)
  | failure
deriving DecidableEq

/-- The observable steps of fetchArtworks (App.tsx lines 45-60).  issue p
is the synchronous prefix of a call fetchArtworks(p): setLoading(true).
resolve p o is the continuation running when that call's response o
arrives: on success, setArtworks(data.data) and setPagination(
data.pagination); on failure, only console.error; in both cases the
finally branch runs setLoading(false).  The page of a resolve event is
bookkeeping only: the code keeps no request generation, so the
continuation commits its response no matter which request is newest. -/
inductive UiEvent where
  | issue (page : Nat)
  | resolve (page : Nat) (outcome : FetchOutcome)
deriving DecidableEq

/-- See UiEvent: the state transition of one event. -/
def stepEvent (s : ControllerState) (e : UiEvent) : ControllerState :=
  match e with
  | .issue _ => { s with loading := true }
  | .resolve _ (.success d p) => ⟨d, p, false⟩
  | .resolve _ .failure => { s with loading := false }

/-- A whole interleaving of fetchArtworks calls and arrivals. -/
def runEvents (s : ControllerState) (es : List UiEvent) : ControllerState :=
  es.foldl stepEvent s

/-! Helper lemmas about the selection-set folds. -/

/-- Membership after deleting every id of a list from a set. -/
theorem mem_foldl_erase (l : List Nat) (s : Finset Nat) (x : Nat) :
    x ∈ l.foldl Finset.erase s ↔ x ∈ s ∧ x ∉ l := by
  induction l generalizing s with
  | nil => simp
  | cons a t ih =>
    rw [List.foldl_cons, ih]
    simp only [Finset.mem_erase, List.mem_cons]
    tauto

/-- Deleting every id of a list is set difference. -/
theorem foldl_erase_eq (l : List Nat) (s : Finset Nat) :
    l.foldl Finset.erase s = s \ l.toFinset := by
  ext x
  simp [mem_foldl_erase]

/-- idsOf distributes over cons. -/
theorem idsOf_cons (a : Artwork) (t : List Artwork) :
    idsOf (a :: t) = insert a.id (idsOf t) := by
  simp [idsOf]

/-- idsOf distributes over append. -/
theorem idsOf_append (l1 l2 : List Artwork) :
    idsOf (l1 ++ l2) = idsOf l1 ∪ idsOf l2 := by
  simp [idsOf]

/-- Folding Set.add over a list of records is union with its id set. -/
theorem insertIds_eq (l : List Artwork) (s : Finset Nat) :
    insertIds s l = s ∪ idsOf l := by
  induction l generalizing s with
  | nil => simp [insertIds, idsOf]
  | cons a t ih =>
    have h1 : insertIds s (a :: t) = insertIds (insert a.id s) t := rfl
    rw [h1, ih, idsOf_cons, Finset.insert_union, Finset.union_insert]

/-- The inner for loop adds the ids of the first r records of the page
and leaves the counter at r minus the number of records it consumed. -/
theorem addFromPage_eq (data : List Artwork) (r : Nat) (sel : Finset Nat) :
    addFromPage data r sel = (sel ∪ idsOf (data.take r), r - min r data.length) := by
  induction data generalizing r sel with
  | nil => simp [addFromPage, idsOf]
  | cons a t ih =>
    cases r with
    | zero => simp [addFromPage, idsOf]
    | succ k =>
      have h1 : addFromPage (a :: t) (k + 1) sel = addFromPage t k (insert a.id sel) := rfl
      rw [h1, ih, List.take_succ_cons, idsOf_cons, Finset.union_insert,
        ← Finset.insert_union, List.length_cons, Nat.succ_min_succ, Nat.succ_sub_succ]

/-! Unfolding equations of the bulk walk, by iteration case. -/

/-- Out of gas: only reachable with currentPage = tp + 1, where the while
condition is false as well. -/
theorem selectLoop_zero (fetch : Nat → Option (List Artwork)) (tp cp r : Nat)
    (sel : Finset Nat) (acc : List Nat) :
    selectLoop fetch tp 0 cp r sel acc = .ok sel r acc := rfl

/-- The while condition failed: the loop returns the accumulated state. -/
theorem selectLoop_exit (fetch : Nat → Option (List Artwork)) (tp gas cp r : Nat)
    (sel : Finset Nat) (acc : List Nat) (hc : ¬(0 < r ∧ cp ≤ tp)) :
    selectLoop fetch tp (gas + 1) cp r sel acc = .ok sel r acc := by
  rw [selectLoop, if_neg hc]

/-- The fetch of the current page rejected: the exception aborts the
walk. -/
theorem selectLoop_none (fetch : Nat → Option (List Artwork)) (tp gas cp r : Nat)
    (sel : Finset Nat) (acc : List Nat) (hc : 0 < r ∧ cp ≤ tp)
    (hf : fetch cp = none) :
    selectLoop fetch tp (gas + 1) cp r sel acc = .failed cp acc := by
  rw [selectLoop, if_pos hc, hf]

/-- The fetch of the current page succeeded: consume records and move to
the next page. -/
theorem selectLoop_some (fetch : Nat → Option (List Artwork)) (tp gas cp r : Nat)
    (sel : Finset Nat) (acc : List Nat) (data : List Artwork)
    (hc : 0 < r ∧ cp ≤ tp) (hf : fetch cp = some data) :
    selectLoop fetch tp (gas + 1) cp r sel acc =
      selectLoop fetch tp gas (cp + 1) (r - min r data.length)
        (sel ∪ idsOf (data.take r)) (acc ++ [cp]) := by
  rw [selectLoop, if_pos hc, hf]
  show selectLoop fetch tp gas (cp + 1) (addFromPage data r sel).2
      (addFromPage data r sel).1 (acc ++ [cp]) = _
  rw [addFromPage_eq]

/-- The walk's control flow never looks at the seeded selection: either
every seed makes the same fetch fail at the same page, or there is a
fixed id set S (the ids the loop consumes), a fixed final counter and a
fixed page list such that from any seed the walk returns the seed
unioned with S. -/
theorem selectLoop_split (fetch : Nat → Option (List Artwork)) (tp : Nat) :
    ∀ (gas cp r : Nat) (acc : List Nat),
      (∃ p f, ∀ sel, selectLoop fetch tp gas cp r sel acc = .failed p f) ∨
      (∃ S r0 f, ∀ sel, selectLoop fetch tp gas cp r sel acc = .ok (sel ∪ S) r0 f) := by
  intro gas
  induction gas with
  | zero =>
    intro cp r acc
    exact Or.inr ⟨∅, r, acc, fun sel => by rw [selectLoop_zero, Finset.union_empty]⟩
  | succ g ih =>
    intro cp r acc
    by_cases hc : 0 < r ∧ cp ≤ tp
    · cases hf : fetch cp with
      | none =>
        exact Or.inl ⟨cp, acc, fun sel => selectLoop_none fetch tp g cp r sel acc hc hf⟩
      | some data =>
        rcases ih (cp + 1) (r - min r data.length) (acc ++ [cp]) with
          ⟨p, f, hAll⟩ | ⟨S, r0, f, hAll⟩
        · refine Or.inl ⟨p, f, fun sel => ?_⟩
          rw [selectLoop_some fetch tp g cp r sel acc data hc hf, hAll]
        · refine Or.inr ⟨idsOf (data.take r) ∪ S, r0, f, fun sel => ?_⟩
          rw [selectLoop_some fetch tp g cp r sel acc data hc hf, hAll,
            Finset.union_assoc]
    · exact Or.inr ⟨∅, r, acc, fun sel => by
        rw [selectLoop_exit fetch tp g cp r sel acc hc, Finset.union_empty]⟩

/-- When the counter strictly exceeds the number of records still ahead,
the walk over a never-failing paged collection consumes every remaining
page: it adds every remaining id, ends with the counter diminished by the
number of remaining records, and fetches exactly pages cp..tp in
increasing order. -/
theorem selectLoop_consume_all (pages : List (List Artwork)) :
    ∀ (gas cp r : Nat) (sel : Finset Nat) (acc : List Nat),
      1 ≤ cp → pages.length + 1 - cp ≤ gas →
      (restRecords pages cp).length < r →
      selectLoop (pagesFetch pages) pages.length gas cp r sel acc =
        .ok (sel ∪ idsOf (restRecords pages cp))
          (r - (restRecords pages cp).length)
          (acc ++ List.range' cp (pages.length + 1 - cp)) := by
  intro gas
  induction gas with
  | zero =>
    intro cp r sel acc h1 hgas hlt
    have hdrop : pages.drop (cp - 1) = [] :=
      List.drop_eq_nil_of_le (by omega)
    have hn : pages.length + 1 - cp = 0 := by omega
    rw [selectLoop_zero]
    simp [restRecords, idsOf, hdrop, hn]
  | succ g ih =>
    intro cp r sel acc h1 hgas hlt
    by_cases hcp : cp ≤ pages.length
    · have hidx : cp - 1 < pages.length := by omega
      have hc1 : cp - 1 + 1 = cp := by omega
      have hd : pages.drop (cp - 1) = pages[cp - 1] :: pages.drop cp := by
        rw [List.drop_eq_getElem_cons hidx, hc1]
      have hrest : restRecords pages cp = pages[cp - 1] ++ restRecords pages (cp + 1) := by
        rw [restRecords, hd, List.flatten_cons, restRecords, Nat.add_sub_cancel]
      have hlen : (pages[cp - 1] : List Artwork).length ≤ r := by
        rw [hrest] at hlt
        simp only [List.length_append] at hlt
        omega
      have hf : pagesFetch pages cp = some pages[cp - 1] :=
        List.getElem?_eq_getElem hidx
      rw [selectLoop_some (pagesFetch pages) pages.length g cp r sel acc
        pages[cp - 1] ⟨by omega, hcp⟩ hf]
      rw [List.take_of_length_le hlen, Nat.min_eq_right hlen]
      rw [ih (cp + 1) (r - (pages[cp - 1] : List Artwork).length)
        (sel ∪ idsOf pages[cp - 1]) (acc ++ [cp]) (by omega) (by omega)
        (by rw [hrest] at hlt; simp only [List.length_append] at hlt; omega)]
      rw [hrest, idsOf_append, Finset.union_assoc, List.length_append]
      have hr : r - (pages[cp - 1] : List Artwork).length -
          (restRecords pages (cp + 1)).length =
          r - ((pages[cp - 1] : List Artwork).length +
            (restRecords pages (cp + 1)).length) := by omega
      rw [hr]
      have hrange : List.range' cp (pages.length + 1 - cp) =
          cp :: List.range' (cp + 1) (pages.length + 1 - (cp + 1)) := by
        have h2 : pages.length + 1 - cp = (pages.length + 1 - (cp + 1)) + 1 := by omega
        rw [h2, List.range'_succ]
      rw [hrange, List.append_assoc, List.singleton_append]
    · have hdrop : pages.drop (cp - 1) = [] :=
        List.drop_eq_nil_of_le (by omega)
      have hn : pages.length + 1 - cp = 0 := by omega
      rw [selectLoop_exit _ _ _ _ _ _ _ (by omega)]
      simp [restRecords, idsOf, hdrop, hn]

/-- Committing branch of selectFirstN. -/
theorem selectFirstN_ok (fetch : Nat → Option (List Artwork)) (tp n : Nat)
    (sel s : Finset Nat) (r : Nat) (f : List Nat)
    (h : selectLoop fetch tp tp 1 n sel [] = .ok s r f) :
    selectFirstN fetch tp n sel = ⟨s, f, .committed r⟩ := by
  unfold selectFirstN
  rw [h]

/-- Aborting branch of selectFirstN: the commit on App.tsx line 125 is
never reached, so the selection state stays the seed. -/
theorem selectFirstN_failed (fetch : Nat → Option (List Artwork)) (tp n : Nat)
    (sel : Finset Nat) (p : Nat) (f : List Nat)
    (h : selectLoop fetch tp tp 1 n sel [] = .failed p f) :
    selectFirstN fetch tp n sel = ⟨sel, f, .fetchException p⟩ := by
  unfold selectFirstN
  rw [h]

/-- The validation branch of handleSelectRowsByCount: a NaN parse or a
non-positive count alerts and returns before any fetch. -/
theorem handleSelectRowsByCount_invalid (fetch : Nat → Option (List Artwork))
    (tp : Nat) (input : String) (sel : Finset Nat)
    (h : jsParseInt input = none ∨ ∃ k, jsParseInt input = some k ∧ k ≤ 0) :
    handleSelectRowsByCount fetch tp input sel = ⟨sel, [], .invalidInput⟩ := by
  rcases h with h | ⟨k, hk, hk0⟩
  · unfold handleSelectRowsByCount
    rw [h]
  · unfold handleSelectRowsByCount
    rw [hk]
    show (if k ≤ 0 then (⟨sel, [], .invalidInput⟩ : BulkResult)
      else selectFirstN fetch tp k.toNat sel) = _
    rw [if_pos hk0]

/-- A parse producing a positive count passes validation and runs the
walk. -/
theorem handleSelectRowsByCount_valid (fetch : Nat → Option (List Artwork))
    (tp : Nat) (input : String) (sel : Finset Nat) (k : Int)
    (hp : jsParseInt input = some k) (hk : ¬k ≤ 0) :
    handleSelectRowsByCount fetch tp input sel = selectFirstN fetch tp k.toNat sel := by
  unfold handleSelectRowsByCount
  rw [hp]
  show (if k ≤ 0 then (⟨sel, [], .invalidInput⟩ : BulkResult)
    else selectFirstN fetch tp k.toNat sel) = _
  rw [if_neg hk]

/-! Concrete fixtures used by witnesses and counterexamples. -/

/-- A remote that serves page 1 of the worked example and rejects every
other page. -/
def failingFetch : Nat → Option (List Artwork) :=
  fun p => if p = 1 then pagesFetch artPages 1 else none

/-- A two-page collection of three records, for small witnesses. -/
def smallPages : List (List Artwork) :=
  [[mkArt 1, mkArt 2], [mkArt 3]]

/-- Pagination metadata of page 1 of the worked example. -/
def pagOne : PaginationInfo := ⟨100, 12, 0, 9, 1⟩

/-- Pagination metadata of page 3 of the worked example. -/
def pagThree : PaginationInfo := ⟨100, 12, 24, 9, 3⟩

/-- Pagination metadata of page 4 of the worked example. -/
def pagFour : PaginationInfo := ⟨100, 12, 36, 9, 4⟩

/-! The claims. -/

/-- C1: with the worked-example metadata already loaded (total = 100,
limit = 12, total_pages = 9), the bulk selection with count 15 fetches
page 1 then page 2 and nothing else (strictly increasing, no revisit),
adds to any starting selection exactly the ids 1..15 (all 12 of page 1
and the first 3 of page 2), commits with counter 0, and from the empty
selection the resulting selection size is 15. -/
theorem c1_selectFirstN_fifteen :
    (∀ sel : Finset Nat, handleSelectRowsByCount (pagesFetch artPages) 9 "15" sel =
      ⟨sel ∪ Finset.image (fun i => i + 1) (Finset.range 15), [1, 2], .committed 0⟩) ∧
    (handleSelectRowsByCount (pagesFetch artPages) 9 "15" ∅).finalSel.card = 15 := by
  have hp : jsParseInt "15" = some 15 := by decide
  have hvalid : ∀ sel, handleSelectRowsByCount (pagesFetch artPages) 9 "15" sel =
      selectFirstN (pagesFetch artPages) 9 15 sel := fun sel =>
    handleSelectRowsByCount_valid (pagesFetch artPages) 9 "15" sel 15 hp (by decide)
  have main : ∀ sel, selectFirstN (pagesFetch artPages) 9 15 sel =
      ⟨sel ∪ Finset.image (fun i => i + 1) (Finset.range 15), [1, 2], .committed 0⟩ := by
    rcases selectLoop_split (pagesFetch artPages) 9 9 1 15 [] with
      ⟨p, f, hAll⟩ | ⟨S, r0, f, hAll⟩
    · have hout : (selectFirstN (pagesFetch artPages) 9 15 ∅).outcome = .committed 0 := by
        decide
      rw [selectFirstN_failed _ _ _ _ p f (hAll ∅)] at hout
      simp at hout
    · have h0 := hAll ∅
      rw [Finset.empty_union] at h0
      have hfin : (selectFirstN (pagesFetch artPages) 9 15 ∅).finalSel =
          Finset.image (fun i => i + 1) (Finset.range 15) := by decide
      have hfet : (selectFirstN (pagesFetch artPages) 9 15 ∅).fetched = [1, 2] := by decide
      have hout : (selectFirstN (pagesFetch artPages) 9 15 ∅).outcome = .committed 0 := by
        decide
      rw [selectFirstN_ok _ _ _ _ _ _ _ h0] at hfin hfet hout
      have e1 : S = Finset.image (fun i => i + 1) (Finset.range 15) := hfin
      have e2 : f = [1, 2] := hfet
      have hout2 : BulkOutcome.committed r0 = BulkOutcome.committed 0 := hout
      have e3 : r0 = 0 := by injection hout2
      intro sel
      rw [selectFirstN_ok _ _ _ _ _ _ _ (hAll sel), e1, e2, e3]
  refine ⟨fun sel => by rw [hvalid sel, main sel], ?_⟩
  rw [hvalid ∅, main ∅]
  show (∅ ∪ Finset.image (fun i => i + 1) (Finset.range 15)).card = 15
  decide

/-- C3 counterexample: the input "3.5" denotes the non-integer count 3.5,
yet parseInt truncates it to 3, so the call does fetch a page (network
activity) and does change the selection, instead of failing validation. -/
theorem c3_counterexample :
    (handleSelectRowsByCount (pagesFetch artPages) 9 "3.5" ∅).fetched = [1] ∧
    (handleSelectRowsByCount (pagesFetch artPages) 9 "3.5" ∅).finalSel = {1, 2, 3} ∧
    (handleSelectRowsByCount (pagesFetch artPages) 9 "3.5" ∅).finalSel ≠ ∅ ∧
    (handleSelectRowsByCount (pagesFetch artPages) 9 "3.5" ∅).outcome = .committed 0 :=
  ⟨by decide, by decide, by decide, by decide⟩

/-- C3 amended: an input that parses to NaN (no leading integer) or to a
count ≤ 0 fails validation synchronously - no page is fetched and the
selection is exactly what it was; a non-integer numeric input such as
"3.5", however, is truncated by parseInt and proceeds. -/
theorem c3_invalid_count_rejected (fetch : Nat → Option (List Artwork)) (tp : Nat)
    (input : String) (sel : Finset Nat)
    (h : jsParseInt input = none ∨ ∃ k, jsParseInt input = some k ∧ k ≤ 0) :
    handleSelectRowsByCount fetch tp input sel = ⟨sel, [], .invalidInput⟩ :=
  handleSelectRowsByCount_invalid fetch tp input sel h

/-- C3 witness: the spec's own example count -3 is rejected with the
selection untouched and no fetch issued. -/
theorem c3_witness :
    handleSelectRowsByCount (pagesFetch artPages) 9 "-3" ∅ = ⟨∅, [], .invalidInput⟩ :=
  c3_invalid_count_rejected (pagesFetch artPages) 9 "-3" ∅
    (Or.inr ⟨-3, by decide, by decide⟩)

/-- C4: reconciling a page replaces, inside the selection, the page's ids
by the checked subset - the result is (selection minus page ids) union
checked ids - and, when the checked subset is drawn from the page, every
id outside the page keeps its membership status. -/
theorem c4_reconcile (sel : Finset Nat) (artworks value : List Artwork)
    (hsub : idsOf value ⊆ idsOf artworks) :
    handleSelectionChange sel artworks value = (sel \ idsOf artworks) ∪ idsOf value ∧
    ∀ x, x ∉ idsOf artworks →
      (x ∈ handleSelectionChange sel artworks value ↔ x ∈ sel) := by
  have hmain : handleSelectionChange sel artworks value =
      (sel \ idsOf artworks) ∪ idsOf value := by
    rw [handleSelectionChange, insertIds_eq, foldl_erase_eq]
    rfl
  refine ⟨hmain, fun x hx => ?_⟩
  rw [hmain]
  simp only [Finset.mem_union, Finset.mem_sdiff]
  constructor
  · rintro (⟨hs, _⟩ | hv)
    · exact hs
    · exact absurd (hsub hv) hx
  · intro hs
    exact Or.inl ⟨hs, hx⟩

/-- C4 witness: a concrete reconciliation (page {1, 2}, checked {2},
prior selection {1, 5}). -/
theorem c4_witness :
    handleSelectionChange {1, 5} [mkArt 1, mkArt 2] [mkArt 2] =
      ({1, 5} \ idsOf [mkArt 1, mkArt 2]) ∪ idsOf [mkArt 2] :=
  (c4_reconcile {1, 5} [mkArt 1, mkArt 2] [mkArt 2] (by decide)).1

/-- C9: the visible selection of a page is exactly the records of that
page whose id is in the global selection - sound, complete, and a
subsequence of the page (so nothing outside the page appears). -/
theorem c9_visible_selection (artworks : List Artwork) (sel : Finset Nat) :
    (∀ a, a ∈ getCurrentPageSelectedRows artworks sel ↔ a ∈ artworks ∧ a.id ∈ sel) ∧
    (getCurrentPageSelectedRows artworks sel).Sublist artworks := by
  constructor
  · intro a
    simp [getCurrentPageSelectedRows, List.mem_filter]
  · exact List.filter_sublist artworks

/-- C9 witness: a concrete page and selection. -/
theorem c9_witness :
    getCurrentPageSelectedRows [mkArt 1, mkArt 2, mkArt 3] {1, 3, 7} =
      [mkArt 1, mkArt 3] := by decide

/-- C2 counterexample: with a remote that serves page 1 and then fails,
selectFirstN(15) stops at page 2 having fetched page 1 and accumulated
ids 1..12, yet the committed selection is still empty - id 1 is NOT
selected after the failure, because setSelectedRowIds on App.tsx line 125
is only reached after the whole loop, so the partial effect is rolled
back rather than retained. -/
theorem c2_counterexample :
    (handleSelectRowsByCount failingFetch 9 "15" ∅).outcome = .fetchException 2 ∧
    (handleSelectRowsByCount failingFetch 9 "15" ∅).fetched = [1] ∧
    (handleSelectRowsByCount failingFetch 9 "15" ∅).finalSel = ∅ ∧
    1 ∉ (handleSelectRowsByCount failingFetch 9 "15" ∅).finalSel :=
  ⟨by decide, by decide, by decide, by decide⟩

/-- C2 amended: if an intermediate fetch fails, the walk stops
immediately at that page, but the committed selection is left exactly as
it was before the call - no partially accumulated id survives, since the
local set is committed only after the loop completes - and the failure
escapes as the underlying fetch exception (modelled here with the failing
page index), not as a wrapped FetchError. -/
theorem c2_failure_discards_accumulated (fetch : Nat → Option (List Artwork))
    (tp : Nat) (input : String) (sel : Finset Nat) (p : Nat)
    (h : (handleSelectRowsByCount fetch tp input sel).outcome = .fetchException p) :
    (handleSelectRowsByCount fetch tp input sel).finalSel = sel := by
  cases hp : jsParseInt input with
  | none =>
    rw [handleSelectRowsByCount_invalid fetch tp input sel (Or.inl hp)] at h
    simp at h
  | some k =>
    by_cases hk : k ≤ 0
    · rw [handleSelectRowsByCount_invalid fetch tp input sel (Or.inr ⟨k, hp, hk⟩)] at h
      simp at h
    · rw [handleSelectRowsByCount_valid fetch tp input sel k hp hk] at h ⊢
      cases hw : selectLoop fetch tp tp 1 k.toNat sel [] with
      | ok s r f =>
        rw [selectFirstN_ok _ _ _ _ _ _ _ hw] at h
        simp at h
      | failed q f =>
        rw [selectFirstN_failed _ _ _ _ _ _ hw]

/-- C2 witness: the committed selection after the concrete mid-walk
failure equals the (empty) selection before the call. -/
theorem c2_witness :
    (handleSelectRowsByCount failingFetch 9 "15" ∅).finalSel = ∅ :=
  c2_failure_discards_accumulated failingFetch 9 "15" ∅ 2 (by decide)

/-- C5: fetchArtworks keeps no request generation, so when requestPage(3)
and then requestPage(4) are issued and the page-3 response arrives after
the page-4 response, the stale page-3 response is committed: the final
state shows page 3's records and pagination, not page 4's, violating the
required last-request-wins discipline. -/
theorem c5_stale_response_commits :
    runEvents ⟨[], initialPagination, false⟩
        [.issue 3, .issue 4, .resolve 4 (.success [mkArt 40] pagFour),
          .resolve 3 (.success [mkArt 30] pagThree)] =
      ⟨[mkArt 30], pagThree, false⟩ ∧
    ([mkArt 30] : List Artwork) ≠ [mkArt 40] :=
  ⟨rfl, by decide⟩

/-- C6: when the requested count exceeds the collection's record total,
the walk fetches every page (1..total_pages in order), selects every
record of the collection, and commits without error, the counter ending
at n - total; the number of records actually consumed, n minus that
remainder, is the true total, which is less than n. -/
theorem c6_overshoot_selects_all (pages : List (List Artwork)) (n : Nat)
    (sel : Finset Nat) (h : totalRecords pages < n) :
    selectFirstN (pagesFetch pages) pages.length n sel =
      ⟨sel ∪ idsOf pages.flatten, List.range' 1 pages.length,
        .committed (n - totalRecords pages)⟩ ∧
    n - (n - totalRecords pages) = totalRecords pages := by
  have hr1 : restRecords pages 1 = pages.flatten := by
    rw [restRecords]
    norm_num
  have hlen : (restRecords pages 1).length = totalRecords pages := by
    rw [hr1, totalRecords, List.length_flatten]
  have hwalk := selectLoop_consume_all pages pages.length 1 n sel []
    (by omega) (by omega) (by rw [hlen]; exact h)
  have hlen2 : pages.flatten.length = totalRecords pages := by
    rw [totalRecords, List.length_flatten]
  rw [hr1] at hwalk
  rw [hlen2] at hwalk
  have hrange : pages.length + 1 - 1 = pages.length := by omega
  rw [hrange, List.nil_append] at hwalk
  exact ⟨selectFirstN_ok _ _ _ _ _ _ _ hwalk, by omega⟩

/-- C6 witness: requesting 10 from a collection of 3 records selects all
three ids, fetches both pages, and ends with counter 7. -/
theorem c6_witness :
    selectFirstN (pagesFetch smallPages) smallPages.length 10 ∅ =
      ⟨∅ ∪ idsOf smallPages.flatten, List.range' 1 smallPages.length,
        .committed (10 - totalRecords smallPages)⟩ :=
  (c6_overshoot_selects_all smallPages 10 ∅ (by decide)).1

/-- C7: for any count n ≥ 1 and any starting selection, running the bulk
walk a second time from the state the first run committed changes
nothing (set semantics make the re-added ids no-ops, and a failing walk
commits nothing both times); concretely, two successive runs with count
15 on the worked example leave size 15, not 30. -/
theorem c7_selectFirstN_idempotent (fetch : Nat → Option (List Artwork))
    (tp n : Nat) (sel : Finset Nat) (_hn : 1 ≤ n) :
    (selectFirstN fetch tp n ((selectFirstN fetch tp n sel).finalSel)).finalSel =
      (selectFirstN fetch tp n sel).finalSel ∧
    (handleSelectRowsByCount (pagesFetch artPages) 9 "15"
      ((handleSelectRowsByCount (pagesFetch artPages) 9 "15" ∅).finalSel)).finalSel.card =
      15 := by
  constructor
  · rcases selectLoop_split fetch tp tp 1 n [] with ⟨p, f, hAll⟩ | ⟨S, r0, f, hAll⟩
    · have h1 : (selectFirstN fetch tp n sel).finalSel = sel := by
        rw [selectFirstN_failed _ _ _ _ p f (hAll sel)]
      rw [h1]
      exact h1
    · have h1 : (selectFirstN fetch tp n sel).finalSel = sel ∪ S := by
        rw [selectFirstN_ok _ _ _ _ _ _ _ (hAll sel)]
      have h2 : (selectFirstN fetch tp n (sel ∪ S)).finalSel = sel ∪ S ∪ S := by
        rw [selectFirstN_ok _ _ _ _ _ _ _ (hAll (sel ∪ S))]
      rw [h1, h2, Finset.union_assoc, Finset.union_self]
  · decide

/-- C7 witness: idempotence at the concrete count 15 on the worked
example. -/
theorem c7_witness :
    (selectFirstN (pagesFetch artPages) 9 15
      ((selectFirstN (pagesFetch artPages) 9 15 ∅).finalSel)).finalSel =
      (selectFirstN (pagesFetch artPages) 9 15 ∅).finalSel :=
  (c7_selectFirstN_idempotent (pagesFetch artPages) 9 15 ∅ (by decide)).1

/-- C8 counterexample: from a state displaying page 1's records, a
failing navigation fetch leaves those records displayed - the record list
is not cleared, contradicting the claim that no page is displayed after
a failure (and the state holds no error field at all, so no error is
retained). -/
theorem c8_counterexample :
    (runEvents ⟨[mkArt 1], pagOne, false⟩ [.issue 2, .resolve 2 .failure]).artworks =
      [mkArt 1] ∧
    (runEvents ⟨[mkArt 1], pagOne, false⟩ [.issue 2, .resolve 2 .failure]).artworks ≠
      [] :=
  ⟨rfl, by decide⟩

/-- C8 amended: on a failed navigation fetch the catch branch only logs,
so the whole effect of the call is clearing the loading flag (the finally
branch): the displayed record list and the pagination metadata are left
exactly as they were, and no error is stored for display. -/
theorem c8_failure_only_clears_loading (s : ControllerState) (p : Nat) :
    runEvents s [.issue p, .resolve p .failure] = { s with loading := false } ∧
    (runEvents s [.issue p, .resolve p .failure]).artworks = s.artworks ∧
    (runEvents s [.issue p, .resolve p .failure]).pagination = s.pagination ∧
    (runEvents s [.issue p, .resolve p .failure]).loading = false :=
  ⟨rfl, rfl, rfl, rfl⟩

/-- C10: the walk is bounded by the pagination metadata captured before
it starts, so a bulk selection invoked with a valid positive count while
total_pages still holds its initial value 0 issues no fetch at all,
commits the selection unchanged, and reports no error. -/
theorem c10_bulk_before_first_load (fetch : Nat → Option (List Artwork))
    (input : String) (k : Int) (sel : Finset Nat)
    (hp : jsParseInt input = some k) (hk : 0 < k) :
    handleSelectRowsByCount fetch initialPagination.total_pages input sel =
      ⟨sel, [], .committed k.toNat⟩ := by
  rw [handleSelectRowsByCount_valid fetch initialPagination.total_pages input sel k hp
    (by omega)]
  exact selectFirstN_ok fetch initialPagination.total_pages k.toNat sel sel k.toNat [] rfl

/-- C10 witness: count 5 before any page has loaded - no fetch, selection
unchanged, no error. -/
theorem c10_witness :
    handleSelectRowsByCount (pagesFetch artPages) initialPagination.total_pages "5" ∅ =
      ⟨∅, [], .committed 5⟩ :=
  c10_bulk_before_first_load (pagesFetch artPages) "5" 5 ∅ (by decide) (by decide)

end GrowMe
